import Mathlib

/-!
Verification of the auto-review daemon (`auto_review.py`) and the audit
companion tool (`src/let_claude_code/audit.py`).

The Python sources are shallowly embedded: strings are Lean `String`s
(manipulated through their `List Char` data, modelling the ASCII string
operations of Python), subprocess results are explicit outcome values, and the
`AutoReviewer.run_once` control flow is embedded as a pure function from an
environment describing the outcomes of all external commands to the returned
boolean together with the trace of performed effects.
-/

namespace AutoReview

/-! ## Python string primitives (ASCII model) -/

/-- The ASCII whitespace characters recognised by the Python `str.strip` and by
the regex class `\s`. -/
def isPySpace (c : Char) : Bool :=
  c = ' ' || c = '\t' || c = '\n' || c = '\r' || c = '\x0B' || c = '\x0C'

/-- Python `str.strip()` on the character list of a string. -/
def pyStripL (l : List Char) : List Char :=
  (l.dropWhile isPySpace).rdropWhile isPySpace

/-- Python `str.strip()`. -/
def pyStrip (s : String) : String := ⟨pyStripL s.data⟩

/-- Python `str.lower()` (ASCII model: `Char.toLower` lowers only ASCII
letters, which covers every string these programs match against). -/
def pyLower (s : String) : String := ⟨s.data.map Char.toLower⟩

/-- Python `str.upper()` on a character list (ASCII model). -/
def pyUpperL (l : List Char) : List Char := l.map Char.toUpper

/-- Python substring containment `needle in hay` on character lists. -/
def listContains (needle : List Char) : List Char → Bool
  | [] => needle.isPrefixOf []
  | c :: t => needle.isPrefixOf (c :: t) || listContains needle t

/-- Python substring containment `needle in hay`. -/
def pyContains (needle hay : String) : Bool := listContains needle.data hay.data

/-- Python `s.startswith(marker)`. -/
def pyStartsWith (s marker : String) : Bool := marker.data.isPrefixOf s.data

/-- Python `sep.join(pieces)`. -/
def pyJoin (sep : String) : List String → String
  | [] => ""
  | [x] => x
  | x :: y :: t => x ++ sep ++ pyJoin sep (y :: t)

theorem listContains_iff {n h : List Char} : listContains n h = true ↔ n <:+: h := by
  induction h with
  | nil =>
    simp only [listContains, List.isPrefixOf_iff_prefix]
    constructor
    · intro hp
      exact hp.isInfix
    · intro hi
      simpa using List.eq_nil_of_infix_nil hi
  | cons c t ih =>
    simp only [listContains, Bool.or_eq_true, List.isPrefixOf_iff_prefix, ih,
      List.infix_cons_iff]

/-! ## `AutoReviewer.review_pr_with_claude` — approval detection -/

/-- The approval heuristic of `AutoReviewer.review_pr_with_claude`
(auto_review.py lines 840-847): the lowercased reviewer output must contain
one of the affirmative phrases and must not contain `changes_requested`. -/
def reviewApproved (output : String) : Bool :=
  let outputLower := pyLower output
  (pyContains "approved" outputLower ||
   pyContains "lgtm" outputLower ||
   pyContains "ready to merge" outputLower ||
   pyContains "recommend merging" outputLower) &&
  !(pyContains "changes_requested" outputLower)

/-! ## `AutoReviewer._extract_review_feedback`

The source applies `re.search` with the raw pattern
`CHANGES_REQUESTED[:\s]*(.+)` under `re.DOTALL | re.IGNORECASE`.  The pattern is a case-insensitive literal
followed by a greedy run of colons/whitespace and a non-empty greedy capture
of the rest (DOTALL makes `.` match newlines, so the capture runs to the end
of the string).  `crMatchAt` models one attempted match anchored at the head
of the list, including the one-step backtrack the engine performs when
`[:\s]*` would otherwise swallow the whole remainder; `crSearch` models the
leftmost-match search. -/

/-- The 17 characters of the (lowercased) literal `changes_requested`. -/
def crPattern : List Char := "changes_requested".data

/-- Membership in the regex character class `[:\s]`. -/
def isColonOrSpace (c : Char) : Bool := c = ':' || isPySpace c

/-- One attempted match of `CHANGES_REQUESTED[:\s]*(.+)` at the head of `l`
(IGNORECASE, DOTALL); returns the capture group on success. -/
def crMatchAt (l : List Char) : Option (List Char) :=
  if (l.take 17).map Char.toLower = crPattern then
    let rest := l.drop 17
    if rest.isEmpty then none
    else
      let rest2 := rest.dropWhile isColonOrSpace
      if rest2.isEmpty then some (rest.drop (rest.length - 1)) else some rest2
  else none

/-- `re.search`: the leftmost successful match. -/
def crSearch : List Char → Option (List Char)
  | [] => none
  | c :: t =>
    match crMatchAt (c :: t) with
    | some g => some g
    | none => crSearch t

/-- Python `lines[-n:]`. -/
def lastLines (n : Nat) (l : List String) : List String := l.drop (l.length - n)

/-- `AutoReviewer._extract_review_feedback` (auto_review.py lines 852-858):
the stripped capture of the rejection-marker regex truncated to 1000
characters, or the last 20 lines of the stripped output when the regex does
not match. -/
def extractReviewFeedback (reviewOutput : String) : String :=
  match crSearch reviewOutput.data with
  | some g => ⟨(pyStripL g).take 1000⟩
  | none =>
    let lines := ((pyStrip reviewOutput).data.splitOn '\n').map (fun l => String.mk l)
    pyJoin "\n" (lastLines 20 lines)

/-! ## `AutoReviewer.generate_branch_name` -/

/-- `self.modes[0].replace("_", "-")`: the branch-name sanitisation of a mode
key (the pattern is a single character, so the replacement is a character
map). -/
def sanitizeMode (m : String) : String :=
  ⟨m.data.map (fun c => if c = '_' then '-' else c)⟩

/-- `AutoReviewer.generate_branch_name` (auto_review.py lines 696-702) as a
function of its two run-time inputs: the formatted timestamp and the four
random lowercase letters drawn by `random.choices`. -/
def generate_branch_name (modes : List String) (timestamp randomSuffix : String) :
    String :=
  let modePre := match modes with
    | [] => "review"
    | m :: _ => sanitizeMode m
  "auto-" ++ modePre ++ "/" ++ timestamp ++ "-" ++ randomSuffix

/-! ## `AutoReviewer.run_cmd` and `AutoReviewer.run_claude` -/

/-- The possible outcomes of the `subprocess.run` call as observed by the
`try`/`except` blocks of `run_cmd` and `run_claude`: normal completion with a
return code and captured streams, `subprocess.TimeoutExpired`, or any other
exception (carrying its text `str(e)`). -/
inductive ProcOutcome where
  | completed (returncode : Int) (stdout stderr : String)
  | timedOut
  | launchFailed (msg : String)
  deriving DecidableEq

/-- `AutoReviewer.run_cmd` (auto_review.py lines 663-678): total on every
outcome, returning `(success, combined output)`. -/
def runCmd : ProcOutcome → Bool × String
  | .completed rc stdout stderr => (rc == 0, stdout ++ stderr)
  | .timedOut => (false, "Command timed out")
  | .launchFailed msg => (false, msg)

/-- `AutoReviewer.run_claude` (auto_review.py lines 680-694): same shape with
a different timeout sentinel. -/
def run_claude : ProcOutcome → Bool × String
  | .completed rc stdout stderr => (rc == 0, stdout ++ stderr)
  | .timedOut => (false, "Claude timed out")
  | .launchFailed msg => (false, msg)

/-! ## `AutoReviewer.has_commits_ahead` -/

/-- Value of a run of ASCII digits. -/
def digitsToNat (l : List Char) : Nat :=
  l.foldl (fun a c => a * 10 + (c.toNat - '0'.toNat)) 0

/-- A non-empty all-digit run, or failure. -/
def parseDigits (l : List Char) : Option Nat :=
  if !l.isEmpty && l.all (fun c => c.isDigit) then some (digitsToNat l) else none

/-- Python `int()` applied to an already-stripped string: an optional sign
followed by ASCII digits (the Python digit-grouping underscores are not
modelled; `git rev-list --count` output never contains them). -/
def pyParseInt : List Char → Option Int
  | '+' :: t => (parseDigits t).map (fun n => (n : Int))
  | '-' :: t => (parseDigits t).map (fun n => -(n : Int))
  | t => (parseDigits t).map (fun n => (n : Int))

/-- `AutoReviewer.has_commits_ahead` (auto_review.py lines 731-741) as a
function of the result of `git rev-list --count base..HEAD`: returns `True`
only when the command succeeded and its stripped output parses as an integer
greater than zero; any failure of the command or of the parse yields
`False`. -/
def has_commits_ahead (revListOk : Bool) (revListOut : String) : Bool :=
  revListOk &&
    match pyParseInt (pyStripL revListOut.data) with
    | some n => decide (n > 0)
    | none => false

/-! ## `AutoReviewer.create_pull_request` — URL extraction -/

/-- The URL scan of `AutoReviewer.create_pull_request` (auto_review.py lines
794-801): the first stripped line of the `gh pr create` output containing
both `github.com` and `/pull/`. -/
def extract_pr_url (output : String) : Option String :=
  let lines := ((pyStrip output).data.splitOn '\n').map (fun l => String.mk (pyStripL l))
  lines.find? (fun l => pyContains "github.com" l && pyContains "/pull/" l)

/-! ## `AutoReviewer.run_once` — control-flow embedding

`run_once` only branches on the boolean results of its external calls, so it
is embedded as a pure function of an environment `Env` recording the outcome
of every external command of one run.  Besides the returned boolean the
embedding emits the trace of effects (`Event` list) the run performs, in
order; notifications and log lines are omitted (the source swallows their
failures, and no branch inspects them). -/

/-- One external effect performed by `run_once`. -/
inductive Event where
  | acquireFail
  | acquire
  | checkoutBase
  | pull
  | checkoutNew
  | runClaude
  | revList
  | push
  | prCreate
  | review (i : Nat)
  | fix (i : Nat)
  | merge
  | cleanupBranch
  | release
  deriving DecidableEq, Repr

/-- The outcomes of all external commands during one `run_once` call. -/
structure Env where
  lockOk : Bool
  checkoutBaseOk : Bool
  pullOk : Bool
  checkoutNewOk : Bool
  claudeOk : Bool
  revListOk : Bool
  revListOut : String
  pushOk : Bool
  prCreateOk : Bool
  prCreateOut : String
  reviewOutput : Nat → String
  fixOk : Nat → Bool
  mergeOk : Bool
  autoMerge : Bool
  maxIterations : Nat

/-- `AutoReviewer.create_branch` (auto_review.py lines 704-724): checkout of
the base branch (fatal on failure), `git pull --rebase` (failure only
logged), then `git checkout -b` (fatal on failure). -/
def create_branch (e : Env) : Bool × List Event :=
  if !e.checkoutBaseOk then (false, [.checkoutBase])
  else if !e.checkoutNewOk then (false, [.checkoutBase, .pull, .checkoutNew])
  else (true, [.checkoutBase, .pull, .checkoutNew])

/-- `AutoReviewer.create_pull_request` (auto_review.py lines 750-807):
re-checks `has_commits_ahead`, pushes, creates the PR and scans its output
for the URL. -/
def create_pull_request (e : Env) : Option String × List Event :=
  if !has_commits_ahead e.revListOk e.revListOut then (none, [.revList])
  else if !e.pushOk then (none, [.revList, .push])
  else if !e.prCreateOk then (none, [.revList, .push, .prCreate])
  else
    match extract_pr_url e.prCreateOut with
    | none => (none, [.revList, .push, .prCreate])
    | some url => (some url, [.revList, .push, .prCreate])

/-- How the `while iteration < self.max_iterations` loop of `run_once` ended. -/
inductive LoopExit where
  | approved
  | fixerFailed
  | exhausted
  deriving DecidableEq, Repr

/-- The review-fix loop of `run_once` (auto_review.py lines 964-1028).
`iteration` is the Python counter before the pass, the `Nat` argument is the
number of passes the guard still allows; returns the final counter, the exit
reason and the trace.  Approval on iteration `i` is decided by
`reviewApproved` applied to the reviewer output of that iteration, exactly as in
`review_pr_with_claude`; on approval with `auto_merge` the PR is merged. -/
def reviewFixLoop (e : Env) (iteration : Nat) : Nat → Nat × LoopExit × List Event
  | 0 => (iteration, .exhausted, [])
  | r + 1 =>
    let i := iteration + 1
    if reviewApproved (e.reviewOutput i) then
      (i, .approved, [.review i] ++ if e.autoMerge then [.merge] else [])
    else if e.fixOk i then
      let next := reviewFixLoop e i r
      (next.1, next.2.1, .review i :: .fix i :: next.2.2)
    else (i, .fixerFailed, [.review i, .fix i])

/-- The body of the `try:` block of `run_once` (auto_review.py lines
929-1045), after the lock has been acquired.  Every branch mirrors the
source: branch-creation failure returns `False` (without `cleanup_branch`);
a failed assistant run, the no-commits path, a failed PR creation, and all
three loop exits call `cleanup_branch` before returning. -/
def runOnceBody (e : Env) : Bool × List Event :=
  let created := create_branch e
  if !created.1 then (false, created.2)
  else
    let evs2 := created.2 ++ [.runClaude]
    if !e.claudeOk then (false, evs2 ++ [.cleanupBranch])
    else
      let evs3 := evs2 ++ [.revList]
      if !has_commits_ahead e.revListOk e.revListOut then
        (true, evs3 ++ [.cleanupBranch])
      else
        let pr := create_pull_request e
        match pr.1 with
        | none => (false, evs3 ++ pr.2 ++ [.cleanupBranch])
        | some _ =>
          let looped := reviewFixLoop e 0 e.maxIterations
          (true, evs3 ++ pr.2 ++ looped.2.2 ++ [.cleanupBranch])

/-- `AutoReviewer.run_once` (auto_review.py lines 922-1048): failure to
acquire the lock returns `False` immediately; otherwise the body runs and the
`finally:` clause releases the lock on every path out of it. -/
def run_once (e : Env) : Bool × List Event :=
  if !e.lockOk then (false, [.acquireFail])
  else
    let body := runOnceBody e
    (body.1, .acquire :: (body.2 ++ [.release]))

/-- The exit status of `main` under `--once` (auto_review.py lines
1244-1246): `sys.exit(0 if success else 1)`. -/
def onceExitCode (e : Env) : Nat := if (run_once e).1 then 0 else 1

/-- Is an event a review attempt? -/
def isReviewEvent : Event → Bool
  | .review _ => true
  | _ => false

/-- The number of review attempts in a trace. -/
def countReviews (evs : List Event) : Nat := evs.countP isReviewEvent

end AutoReview

namespace Audit

open AutoReview (pyStripL pyStrip pyUpperL pyContains pyJoin listContains)

/-! ## `audit.py`: `parse_audit_response` -/

/-- The three characters of the `N/A` sentinel. -/
def naChars : List Char := "N/A".data

/-- The `ISSUES_FOUND:` field marker. -/
def issuesMarker : List Char := "ISSUES_FOUND:".data

/-- The `CONTINUE:` field marker. -/
def continueMarker : List Char := "CONTINUE:".data

/-- The `INSTRUCTIONS_FOR_CLAUDE:` field marker. -/
def instructionsMarker : List Char := "INSTRUCTIONS_FOR_CLAUDE:".data

/-- The loop state of `parse_audit_response`. -/
structure ParseState where
  issuesFound : Bool
  shouldContinue : Bool
  inInstructions : Bool
  instructionLines : List (List Char)
  deriving DecidableEq

/-- One pass of the `for line in lines:` loop of `parse_audit_response`
(audit.py lines 313-332).  A field marker updates its flag (the text after
the first colon — which, the line starting with the marker, is the colon of
the marker itself — is stripped, uppercased and searched for `YES`); the
instructions marker opens the instructions section and keeps any non-`N/A`
same-line remainder; inside the section non-blank non-`N/A` lines are kept
unstripped. -/
def parseStep (st : ParseState) (line : List Char) : ParseState :=
  let ls := pyStripL line
  if issuesMarker.isPrefixOf ls then
    let value := pyUpperL (pyStripL (ls.drop issuesMarker.length))
    { st with issuesFound := listContains "YES".data value, inInstructions := false }
  else if continueMarker.isPrefixOf ls then
    let value := pyUpperL (pyStripL (ls.drop continueMarker.length))
    { st with shouldContinue := listContains "YES".data value, inInstructions := false }
  else if instructionsMarker.isPrefixOf ls then
    let rest := pyStripL (ls.drop instructionsMarker.length)
    { st with
      inInstructions := true
      instructionLines :=
        if !rest.isEmpty && pyUpperL rest ≠ naChars then
          st.instructionLines ++ [rest]
        else st.instructionLines }
  else if st.inInstructions then
    if !ls.isEmpty && pyUpperL ls ≠ naChars then
      { st with instructionLines := st.instructionLines ++ [line] }
    else st
  else st

/-- `parse_audit_response` (audit.py lines 299-339): split the response on
newlines, fold the line scanner, then join the collected instruction lines;
an empty collection or a joined text equal to `N/A` yields no instructions. -/
def parse_audit_response (response : String) : Bool × Bool × Option String :=
  let lines := response.data.splitOn '\n'
  let st := lines.foldl parseStep ⟨false, false, false, []⟩
  let instructions :=
    if st.instructionLines.isEmpty then none
    else
      let joined := pyStripL (List.intercalate ['\n'] st.instructionLines)
      if pyUpperL joined = naChars then none else some (String.mk joined)
  (st.issuesFound, st.shouldContinue, instructions)

/-! ## `audit.py`: `read_target` on a directory -/

/-- One file found under the target directory: its full path string (as
`str(file_path)`), its path relative to the target (as interpolated into the
header line), and its text — `none` when `read_text` raises, which the
source skips. -/
structure SrcFile where
  pathStr : String
  relPath : String
  content : Option String

/-- The fixed extension list of `read_target` (audit.py line 36). -/
def auditExtensions : List String :=
  [".py", ".js", ".ts", ".tsx", ".jsx", ".java", ".go", ".rs", ".c", ".cpp", ".h"]

/-- Python `s.endswith(pat)`: what `rglob` of `*` plus the extension tests of a candidate
path. -/
def pyEndsWith (s pat : String) : Bool := pat.data.reverse.isPrefixOf s.data.reverse

/-- The body of the inner loop of `read_target` (audit.py lines 37-43): skip
paths containing `.git` or `node_modules`, skip unreadable files, otherwise
produce the `=== rel ===` entry. -/
def fileEntry (f : SrcFile) : Option String :=
  if pyContains ".git" f.pathStr || pyContains "node_modules" f.pathStr then none
  else
    match f.content with
    | none => none
    | some c => some ("=== " ++ f.relPath ++ " ===\n" ++ c ++ "\n")

/-- `read_target` on a directory (audit.py lines 33-44), as a function of the
files enumerated below the target: for each extension in order, every file
matching it contributes its entry (subject to the filters), and the entries
are joined with newlines; no entry at all yields the placeholder. -/
def read_target_dir (files : List SrcFile) : String :=
  let contents :=
    (auditExtensions.flatMap
      (fun ext => files.filter (fun f => pyEndsWith f.pathStr ext))).filterMap fileEntry
  if contents.isEmpty then "[No readable files found]" else pyJoin "\n" contents

end Audit

namespace AutoReview

/-! ## Shared concrete environments -/

/-- A run in which every external command succeeds, the assistant leaves two
commits, and the reviewer rejects on every iteration while the fixer
succeeds. -/
def envAllReject : Env where
  lockOk := true
  checkoutBaseOk := true
  pullOk := true
  checkoutNewOk := true
  claudeOk := true
  revListOk := true
  revListOut := "2\n"
  pushOk := true
  prCreateOk := true
  prCreateOut := "https://github.com/o/r/pull/12\n"
  reviewOutput := fun _ => "CHANGES_REQUESTED: tighten the error handling"
  fixOk := fun _ => true
  mergeOk := true
  autoMerge := false
  maxIterations := 3

/-- A run that finds the lock already held. -/
def envLockHeld : Env := { envAllReject with lockOk := false }

/-- A run in which `git checkout -b` fails, so branch creation fails. -/
def envBranchFails : Env := { envAllReject with checkoutNewOk := false }

/-- A run in which the assistant succeeds but creates no commits. -/
def envNoCommits : Env := { envAllReject with revListOut := "0\n" }

/-- A run in which `git rev-list` itself fails. -/
def envRevListFails : Env := { envAllReject with revListOk := false }

/-! ## Claim C5 — `run_cmd` never raises -/

/-- Claim C5: for every argument vector, working directory and timeout, the
command runner `run_cmd` never raises: it is a total function of the
subprocess outcome which returns `(False, "Command timed out")` on timeout,
`(False, exception text)` on any other launch failure, and otherwise
`(returncode == 0, stdout + stderr)`; in particular it reports success
exactly when the command completed with return code zero. -/
theorem c5_run_cmd_total (r : ProcOutcome) :
    (r = .timedOut → runCmd r = (false, "Command timed out")) ∧
    (∀ msg, r = .launchFailed msg → runCmd r = (false, msg)) ∧
    (∀ rc stdout stderr, r = .completed rc stdout stderr →
      runCmd r = (rc == 0, stdout ++ stderr)) ∧
    ((runCmd r).1 = true ↔ ∃ stdout stderr, r = .completed 0 stdout stderr) := by
  refine ⟨?_, ?_, ?_, ?_⟩
  · rintro rfl; rfl
  · rintro msg rfl; rfl
  · rintro rc stdout stderr rfl; rfl
  · cases r with
    | completed rc stdout stderr => simp [runCmd, beq_iff_eq]
    | timedOut => simp [runCmd]
    | launchFailed msg => simp [runCmd]

/-- Witness for C5: the timeout branch, evaluated. -/
theorem c5_run_cmd_total_witness :
    runCmd ProcOutcome.timedOut = (false, "Command timed out") :=
  (c5_run_cmd_total ProcOutcome.timedOut).1 rfl

/-! ## Claim C3 — behaviour when the lock is already held -/

/-- Counterexample to claim C3 as stated: when the lock is already held,
`run_once` does make no further progress, but it returns `False`, and
`main` under `--once` maps that to exit status 1 — not the claimed status 0. -/
theorem c3_lock_skip_counterexample :
    run_once envLockHeld = (false, [Event.acquireFail]) ∧
    onceExitCode envLockHeld = 1 ∧ onceExitCode envLockHeld ≠ 0 := by
  refine ⟨rfl, rfl, by decide⟩

/-- Claim C3 as amended: when the lock is already held, `run_once` performs
no effect beyond the failed acquisition attempt and returns `False`, so a
one-shot (`--once`) invocation exits with status 1 — the failure status —
rather than 0. -/
theorem c3_lock_skip (e : Env) (h : e.lockOk = false) :
    run_once e = (false, [Event.acquireFail]) ∧ onceExitCode e = 1 := by
  have h1 : run_once e = (false, [Event.acquireFail]) := by
    simp [run_once, h]
  exact ⟨h1, by simp [onceExitCode, h1]⟩

/-- Witness for C3 (amended): the lock-held environment, evaluated. -/
theorem c3_lock_skip_witness :
    run_once envLockHeld = (false, [Event.acquireFail]) ∧
    onceExitCode envLockHeld = 1 :=
  c3_lock_skip envLockHeld rfl

/-! ## Claim C9 — branch-name generation -/

/-- `a ++ b = a ++ c → b = c` for strings. -/
theorem strAppend_cancel_left (a : String) {b c : String} (h : a ++ b = a ++ c) :
    b = c := by
  have h2 : a.data ++ b.data = a.data ++ c.data := by
    simpa [String.data_append] using congrArg String.data h
  exact String.ext (List.append_cancel_left h2)

/-- Counterexample to claim C9 as stated: a generated branch name starts with
the literal `auto-`, not with the sanitized first mode name; and two calls in
the same second whose four random letters coincide (which `random.choices`
permits) return the very same name. -/
theorem c9_branch_name_counterexample :
    generate_branch_name ["fix_bugs"] "20260101-120000" "aaaa" =
      "auto-fix-bugs/20260101-120000-aaaa" ∧
    sanitizeMode "fix_bugs" = "fix-bugs" ∧
    pyStartsWith "auto-fix-bugs/20260101-120000-aaaa" "fix-bugs" = false ∧
    generate_branch_name ["fix_bugs"] "20260101-120000" "aaaa" =
      generate_branch_name ["fix_bugs"] "20260101-120000" "aaaa" := by
  exact ⟨by decide, by decide, by decide, rfl⟩

/-- Claim C9 as amended: every generated branch name begins with `auto-`
followed by the sanitized first selected mode name and a slash, and two calls
within the same second (same timestamp) generate different names exactly when
their random four-letter suffixes differ. -/
theorem c9_branch_name (ms : List String) (m timestamp s₁ s₂ : String) :
    pyStartsWith (generate_branch_name (m :: ms) timestamp s₁)
      ("auto-" ++ sanitizeMode m ++ "/") = true ∧
    (generate_branch_name (m :: ms) timestamp s₁ =
       generate_branch_name (m :: ms) timestamp s₂ ↔ s₁ = s₂) := by
  constructor
  · rw [pyStartsWith, List.isPrefixOf_iff_prefix]
    refine ⟨(timestamp ++ "-" ++ s₁).data, ?_⟩
    simp [generate_branch_name, String.data_append, List.append_assoc]
  · constructor
    · intro h
      exact strAppend_cancel_left
        ("auto-" ++ sanitizeMode m ++ "/" ++ timestamp ++ "-") h
    · intro h
      rw [h]

/-- Witness for C9 (amended): two same-second calls with distinct suffixes. -/
theorem c9_branch_name_witness :
    pyStartsWith (generate_branch_name ["fix_bugs"] "20260101-120000" "abcd")
      ("auto-" ++ sanitizeMode "fix_bugs" ++ "/") = true ∧
    (generate_branch_name ["fix_bugs"] "20260101-120000" "abcd" =
       generate_branch_name ["fix_bugs"] "20260101-120000" "abce" ↔
     ("abcd" : String) = "abce") :=
  c9_branch_name [] "fix_bugs" "20260101-120000" "abcd" "abce"

/-! ## Claim C2 — approval detection -/

/-- Counterexample to claim C2 as stated: the output
`"APPROVED changes_requested"` contains `APPROVED` and does not contain the
exact string `CHANGES_REQUESTED`, yet detection returns `approved = False`,
because the source lowercases the output before testing for the rejection
marker. -/
theorem c2_approval_detection_counterexample :
    pyContains "APPROVED" "APPROVED changes_requested" = true ∧
    pyContains "CHANGES_REQUESTED" "APPROVED changes_requested" = false ∧
    reviewApproved "APPROVED changes_requested" = false := by
  exact ⟨by decide, by decide, by decide⟩

/-- Claim C2 as amended: if the reviewer output contains `APPROVED` and its
lowercasing does not contain `changes_requested` (i.e. no case variant of
`CHANGES_REQUESTED` occurs), detection returns `approved = true`; and on the
output consisting only of `"CHANGES_REQUESTED: fix X"` it returns
`approved = false` with extracted feedback `"fix X"`. -/
theorem c2_approval_detection :
    (∀ output : String, pyContains "APPROVED" output = true →
       pyContains "changes_requested" (pyLower output) = false →
       reviewApproved output = true) ∧
    reviewApproved "CHANGES_REQUESTED: fix X" = false ∧
    extractReviewFeedback "CHANGES_REQUESTED: fix X" = "fix X" := by
  refine ⟨?_, by decide, by decide⟩
  intro output h1 h2
  have hinf : "APPROVED".data <:+: output.data := listContains_iff.mp h1
  have hmap := List.IsInfix.map Char.toLower hinf
  have hlit : "APPROVED".data.map Char.toLower = "approved".data := by decide
  rw [hlit] at hmap
  have hc : pyContains "approved" (pyLower output) = true :=
    listContains_iff.mpr hmap
  simp only [reviewApproved, hc, h2, Bool.true_or, Bool.true_and,
    Bool.not_false]

/-- Witness for C2 (amended): an output containing `APPROVED` and no case
variant of the rejection marker is approved. -/
theorem c2_approval_detection_witness :
    reviewApproved "Looks correct to me. APPROVED." = true :=
  c2_approval_detection.1 "Looks correct to me. APPROVED." (by decide) (by decide)

/-! ## `run_once` path lemmas (shared by C1, C6, C7, C10) -/

/-- On the path where the lock is acquired, branch creation succeeds, the
assistant succeeds, and no commits are ahead of base, `run_once` returns
`True` with exactly this trace. -/
theorem run_once_noCommits (e : Env) (hl : e.lockOk = true)
    (hb : e.checkoutBaseOk = true) (hn : e.checkoutNewOk = true)
    (hc : e.claudeOk = true)
    (hnc : has_commits_ahead e.revListOk e.revListOut = false) :
    run_once e = (true, [.acquire, .checkoutBase, .pull, .checkoutNew,
      .runClaude, .revList, .cleanupBranch, .release]) := by
  simp [run_once, runOnceBody, create_branch, hl, hb, hn, hc, hnc]

/-- Whenever branch creation succeeds, every way out of the `try:` body calls
`cleanup_branch`. -/
theorem cleanupBranch_mem_runOnce (e : Env) (hl : e.lockOk = true)
    (hb : e.checkoutBaseOk = true) (hn : e.checkoutNewOk = true) :
    Event.cleanupBranch ∈ (run_once e).2 := by
  simp only [run_once, runOnceBody, create_branch, hl, hb, hn]
  cases hc : e.claudeOk with
  | false => simp
  | true =>
    cases hca : has_commits_ahead e.revListOk e.revListOut with
    | false => simp
    | true =>
      simp only [Bool.not_true, Bool.false_eq_true, if_false, if_true]
      cases hpr : (create_pull_request e).1 with
      | none => simp [hpr]
      | some u => simp [hpr]

/-- On the full path to the review-fix loop, the trace is the fixed head,
then the trace of the loop, then cleanup and release, and `run_once` returns
`True`. -/
theorem run_once_loop (e : Env) (hl : e.lockOk = true)
    (hb : e.checkoutBaseOk = true) (hn : e.checkoutNewOk = true)
    (hc : e.claudeOk = true)
    (hca : has_commits_ahead e.revListOk e.revListOut = true)
    (hp : e.pushOk = true) (hpc : e.prCreateOk = true)
    (u : String) (hurl : extract_pr_url e.prCreateOut = some u) :
    run_once e = (true,
      [.acquire, .checkoutBase, .pull, .checkoutNew, .runClaude, .revList,
       .revList, .push, .prCreate] ++
      (reviewFixLoop e 0 e.maxIterations).2.2 ++ [.cleanupBranch, .release]) := by
  simp [run_once, runOnceBody, create_branch, create_pull_request,
    hl, hb, hn, hc, hca, hp, hpc, hurl]

/-! ## Claim C6 — cleanup guarantees -/

/-- Counterexample to claim C6 as stated: when `git checkout -b` fails after
the lock was acquired, `run_once` returns without ever invoking
`cleanup_branch` (no checkout back to the base branch happens after the
failure); only the lock release is on the guaranteed `finally:` path. -/
theorem c6_cleanup_counterexample :
    envBranchFails.lockOk = true ∧
    run_once envBranchFails =
      (false, [Event.acquire, .checkoutBase, .pull, .checkoutNew, .release]) ∧
    Event.cleanupBranch ∉ (run_once envBranchFails).2 := by
  refine ⟨rfl, rfl, by decide⟩

/-- Claim C6 as amended: on every path of `run_once` past lock acquisition
the lock is released before returning (the `finally:` clause), and on every
such path on which branch creation also succeeded, `cleanup_branch` — the
checkout back to the base branch — is invoked before returning as well. -/
theorem c6_cleanup (e : Env) (h : e.lockOk = true) :
    Event.release ∈ (run_once e).2 ∧
    (e.checkoutBaseOk = true → e.checkoutNewOk = true →
      Event.cleanupBranch ∈ (run_once e).2) := by
  constructor
  · simp [run_once, h]
  · intro hb hn
    exact cleanupBranch_mem_runOnce e h hb hn

/-- Witness for C6 (amended): a fully successful run releases the lock and
checks out back to base. -/
theorem c6_cleanup_witness :
    Event.release ∈ (run_once envAllReject).2 ∧
    Event.cleanupBranch ∈ (run_once envAllReject).2 :=
  ⟨(c6_cleanup envAllReject rfl).1, (c6_cleanup envAllReject rfl).2 rfl rfl⟩

/-! ## Claim C7 — no push or PR creation without commits -/

/-- Claim C7: in every session in which the assistant invocation succeeds but
leaves zero commits ahead of the base branch, `run_once` returns success and
never pushes, never creates a PR, and never merges. -/
theorem c7_no_push_without_commits (e : Env) (hl : e.lockOk = true)
    (hb : e.checkoutBaseOk = true) (hn : e.checkoutNewOk = true)
    (hc : e.claudeOk = true)
    (hnc : has_commits_ahead e.revListOk e.revListOut = false) :
    (run_once e).1 = true ∧ Event.push ∉ (run_once e).2 ∧
    Event.prCreate ∉ (run_once e).2 ∧ Event.merge ∉ (run_once e).2 := by
  have h := run_once_noCommits e hl hb hn hc hnc
  refine ⟨by rw [h], ?_, ?_, ?_⟩ <;> rw [h] <;> decide

/-- Witness for C7: the concrete no-commit environment. -/
theorem c7_no_push_without_commits_witness :
    (run_once envNoCommits).1 = true ∧ Event.push ∉ (run_once envNoCommits).2 ∧
    Event.prCreate ∉ (run_once envNoCommits).2 ∧
    Event.merge ∉ (run_once envNoCommits).2 :=
  c7_no_push_without_commits envNoCommits rfl rfl rfl rfl (by decide)

/-! ## Claim C10 — rev-list failure is treated as "no changes needed" -/

/-- Claim C10: whenever `git rev-list` fails or its stripped output does not
parse as an integer, `has_commits_ahead` returns `False`, and a `run_once`
session reaching that check therefore takes the "no changes needed" success
path: it returns `True` and never pushes. -/
theorem c10_revlist_failure_success (e : Env) (hl : e.lockOk = true)
    (hb : e.checkoutBaseOk = true) (hn : e.checkoutNewOk = true)
    (hc : e.claudeOk = true)
    (hrev : e.revListOk = false ∨ pyParseInt (pyStripL e.revListOut.data) = none) :
    has_commits_ahead e.revListOk e.revListOut = false ∧
    (run_once e).1 = true ∧ Event.push ∉ (run_once e).2 := by
  have hnc : has_commits_ahead e.revListOk e.revListOut = false := by
    rcases hrev with h | h
    · simp [has_commits_ahead, h]
    · simp [has_commits_ahead, h]
  have hr := run_once_noCommits e hl hb hn hc hnc
  exact ⟨hnc, by rw [hr], by rw [hr]; decide⟩

/-- Witness for C10: a run in which `git rev-list` fails. -/
theorem c10_revlist_failure_success_witness :
    has_commits_ahead envRevListFails.revListOk envRevListFails.revListOut = false ∧
    (run_once envRevListFails).1 = true ∧
    Event.push ∉ (run_once envRevListFails).2 :=
  c10_revlist_failure_success envRevListFails rfl rfl rfl rfl (Or.inl rfl)

/-! ## Claim C1 — the review-fix iteration bound -/

/-- The loop never performs more review attempts than the guard allows. -/
theorem countReviews_reviewFixLoop_le (e : Env) (it r : Nat) :
    countReviews (reviewFixLoop e it r).2.2 ≤ r := by
  induction r generalizing it with
  | zero => simp [reviewFixLoop, countReviews]
  | succ r ih =>
    unfold reviewFixLoop
    cases hap : reviewApproved (e.reviewOutput (it + 1)) with
    | true =>
      cases e.autoMerge <;>
        simp [hap, countReviews, isReviewEvent, List.countP_cons]
    | false =>
      cases hfix : e.fixOk (it + 1) with
      | false =>
        simp [hap, hfix, countReviews, isReviewEvent, List.countP_cons]
      | true =>
        have := ih (it + 1)
        simp only [hap, hfix, Bool.false_eq_true, if_false, if_true,
          countReviews, List.countP_cons, isReviewEvent] at this ⊢
        omega

/-- When the reviewer rejects every iteration and the fixer succeeds every
iteration, the loop performs exactly as many review attempts as the guard
allows. -/
theorem countReviews_reviewFixLoop_exact (e : Env)
    (hrej : ∀ i, reviewApproved (e.reviewOutput i) = false)
    (hfix : ∀ i, e.fixOk i = true) (it r : Nat) :
    countReviews (reviewFixLoop e it r).2.2 = r := by
  induction r generalizing it with
  | zero => simp [reviewFixLoop, countReviews]
  | succ r ih =>
    unfold reviewFixLoop
    have := ih (it + 1)
    simp only [hrej (it + 1), hfix (it + 1), Bool.false_eq_true, if_false,
      if_true, countReviews, List.countP_cons, isReviewEvent] at this ⊢
    omega

/-- `create_pull_request` performs no review attempt. -/
theorem countReviews_create_pull_request (e : Env) :
    countReviews (create_pull_request e).2 = 0 := by
  cases h1 : has_commits_ahead e.revListOk e.revListOut
  · simp [create_pull_request, h1, countReviews, isReviewEvent]
  · cases h2 : e.pushOk
    · simp [create_pull_request, h1, h2, countReviews, isReviewEvent]
    · cases h3 : e.prCreateOk
      · simp [create_pull_request, h1, h2, h3, countReviews, isReviewEvent]
      · cases h4 : extract_pr_url e.prCreateOut <;>
          simp [create_pull_request, h1, h2, h3, h4, countReviews, isReviewEvent]

/-- The body of `run_once` never exceeds `max_iterations` review attempts. -/
theorem countReviews_runOnceBody_le (e : Env) :
    countReviews (runOnceBody e).2 ≤ e.maxIterations := by
  cases hb : e.checkoutBaseOk
  · simp [runOnceBody, create_branch, hb, countReviews, isReviewEvent]
  · cases hn : e.checkoutNewOk
    · simp [runOnceBody, create_branch, hb, hn, countReviews, isReviewEvent]
    · cases hc : e.claudeOk
      · simp [runOnceBody, create_branch, hb, hn, hc, countReviews,
          isReviewEvent, List.countP_append, List.countP_cons]
      · cases hca : has_commits_ahead e.revListOk e.revListOut
        · simp [runOnceBody, create_branch, hb, hn, hc, hca, countReviews,
            isReviewEvent, List.countP_append, List.countP_cons]
        · have h0 := countReviews_create_pull_request e
          cases hpr : (create_pull_request e).1
          · simp only [countReviews, List.countP_append] at h0 ⊢
            simp [runOnceBody, create_branch, hb, hn, hc, hca, hpr,
              List.countP_append, List.countP_cons, isReviewEvent, h0]
          · have h1 := countReviews_reviewFixLoop_le e 0 e.maxIterations
            simp only [countReviews] at h0 h1 ⊢
            simp [runOnceBody, create_branch, hb, hn, hc, hca, hpr,
              List.countP_append, List.countP_cons, isReviewEvent, h0]
            omega

/-- Claim C1: in every run in which the reviewer rejects on every iteration
and the fixer succeeds on every iteration, `run_once` performs exactly
`max_iterations` review attempts and then stops; and in no run whatsoever
does the number of review attempts exceed `max_iterations`. -/
theorem c1_review_iteration_bound (e : Env) :
    ((e.lockOk = true ∧ e.checkoutBaseOk = true ∧ e.checkoutNewOk = true ∧
      e.claudeOk = true ∧ has_commits_ahead e.revListOk e.revListOut = true ∧
      e.pushOk = true ∧ e.prCreateOk = true ∧
      (∃ u, extract_pr_url e.prCreateOut = some u) ∧
      (∀ i, reviewApproved (e.reviewOutput i) = false) ∧
      (∀ i, e.fixOk i = true)) →
      countReviews (run_once e).2 = e.maxIterations) ∧
    countReviews (run_once e).2 ≤ e.maxIterations := by
  constructor
  · rintro ⟨hl, hb, hn, hc, hca, hp, hpc, ⟨u, hurl⟩, hrej, hfix⟩
    rw [run_once_loop e hl hb hn hc hca hp hpc u hurl]
    have he := countReviews_reviewFixLoop_exact e hrej hfix 0 e.maxIterations
    simp only [countReviews, List.countP_append] at he ⊢
    simp [List.countP_cons, isReviewEvent, he]
  · cases hl : e.lockOk
    · simp [run_once, hl, countReviews, List.countP_cons, List.countP_nil,
        isReviewEvent]
    · have hbody := countReviews_runOnceBody_le e
      simp only [countReviews] at hbody ⊢
      simp [run_once, hl, List.countP_append, List.countP_cons, isReviewEvent]
      omega

/-- Witness for C1: the always-rejecting environment with `max_iterations`
equal to 3 performs exactly 3 review attempts. -/
theorem c1_review_iteration_bound_witness :
    countReviews (run_once envAllReject).2 = 3 ∧
    countReviews (run_once envAllReject).2 ≤ 3 :=
  ⟨(c1_review_iteration_bound envAllReject).1
      ⟨rfl, rfl, rfl, rfl, by decide, rfl, rfl,
       ⟨"https://github.com/o/r/pull/12", by decide⟩,
       fun i =>
         show reviewApproved "CHANGES_REQUESTED: tighten the error handling" =
           false by decide,
       fun i => rfl⟩,
   (c1_review_iteration_bound envAllReject).2⟩

/-- Every element of a joined list is an infix of the join. -/
theorem mem_pyJoin_infix {x sep : String} :
    ∀ {l : List String}, x ∈ l → x.data <:+: (pyJoin sep l).data := by
  intro l
  induction l with
  | nil => intro h; cases h
  | cons y t ih =>
    intro h
    cases t with
    | nil =>
      have hx : x = y := by simpa using h
      subst hx
      exact List.infix_refl _
    | cons z t2 =>
      rcases List.mem_cons.mp h with rfl | hmem
      · show x.data <:+: (x ++ sep ++ pyJoin sep (z :: t2)).data
        rw [String.data_append, String.data_append, List.append_assoc]
        exact (List.prefix_append x.data _).isInfix
      · have hi := ih hmem
        show x.data <:+: (y ++ sep ++ pyJoin sep (z :: t2)).data
        rw [String.data_append, String.data_append]
        exact hi.trans (List.suffix_append _ _).isInfix

end AutoReview

namespace Audit

open AutoReview (pyContains mem_pyJoin_infix)

/-! ## Claim C8 — `read_target` on a directory -/

/-- Counterexample to claim C8 as stated: the blob returned by `read_target`
for a directory is not capped to any fixed character budget — the source
contains no truncation, so a single sufficiently large file already exceeds
any purported budget `B`. -/
theorem c8_read_target_counterexample :
    ¬ ∃ B : Nat, ∀ files : List SrcFile, (read_target_dir files).length ≤ B := by
  rintro ⟨B, h⟩
  have hc := h [⟨"a.py", "a.py", some (String.mk (List.replicate (B + 1) 'a'))⟩]
  have hent : read_target_dir
      [⟨"a.py", "a.py", some (String.mk (List.replicate (B + 1) 'a'))⟩] =
      "=== a.py ===\n" ++ String.mk (List.replicate (B + 1) 'a') ++ "\n" := rfl
  rw [hent, String.length_append, String.length_append] at hc
  have e1 : ("=== a.py ===\n" : String).length = 13 := rfl
  have e2 : ("\n" : String).length = 1 := rfl
  have e3 : (String.mk (List.replicate (B + 1) 'a')).length = B + 1 :=
    List.length_replicate _ _
  rw [e1, e2, e3] at hc
  omega

/-- Claim C8 as amended: for every directory, `read_target` returns the
newline-join of one `=== rel ===`-headed entry per readable
matching-extension file outside version-control and dependency directories
(grouped in the fixed extension order), with no length cap: the full entry of
each such file occurs verbatim inside the returned blob. -/
theorem c8_read_target (files : List SrcFile) (f : SrcFile) (c : String)
    (hf : f ∈ files) (hc : f.content = some c)
    (hext : auditExtensions.any (fun e => pyEndsWith f.pathStr e) = true)
    (hgit : pyContains ".git" f.pathStr = false)
    (hnm : pyContains "node_modules" f.pathStr = false) :
    ("=== " ++ f.relPath ++ " ===\n" ++ c ++ "\n").data <:+:
      (read_target_dir files).data := by
  obtain ⟨e, hmem, hmatch⟩ := List.any_eq_true.mp hext
  have hentry : fileEntry f = some ("=== " ++ f.relPath ++ " ===\n" ++ c ++ "\n") := by
    simp [fileEntry, hgit, hnm, hc]
  have hinlist : ("=== " ++ f.relPath ++ " ===\n" ++ c ++ "\n") ∈
      (auditExtensions.flatMap
        (fun ex => files.filter (fun g => pyEndsWith g.pathStr ex))).filterMap
        fileEntry := by
    refine List.mem_filterMap.mpr ⟨f, ?_, hentry⟩
    exact List.mem_flatMap.mpr ⟨e, hmem, List.mem_filter.mpr ⟨hf, hmatch⟩⟩
  have hne : ((auditExtensions.flatMap
      (fun ex => files.filter (fun g => pyEndsWith g.pathStr ex))).filterMap
      fileEntry).isEmpty = false := by
    rcases hl : (auditExtensions.flatMap
        (fun ex => files.filter (fun g => pyEndsWith g.pathStr ex))).filterMap
        fileEntry with _ | ⟨a, t⟩
    · rw [hl] at hinlist; cases hinlist
    · rw [hl]; rfl
  show _ <:+: (read_target_dir files).data
  rw [read_target_dir]
  rw [hne]
  exact mem_pyJoin_infix hinlist

/-- Witness for C8 (amended): a one-file directory. -/
theorem c8_read_target_witness :
    ("=== app.py ===\npass\n").data <:+:
      (read_target_dir [⟨"src/app.py", "app.py", some "pass"⟩]).data :=
  c8_read_target [⟨"src/app.py", "app.py", some "pass"⟩]
    ⟨"src/app.py", "app.py", some "pass"⟩ "pass"
    (by simp) rfl (by decide) (by decide) (by decide)

end Audit

namespace AutoReview

/-! ## Whitespace-stripping algebra (used for the audit parser) -/

/-- A strip-invariant list is invariant under each of the two one-sided
strips. -/
theorem pyStripL_eq_self_parts {b : List Char} (h : pyStripL b = b) :
    b.dropWhile isPySpace = b ∧ b.rdropWhile isPySpace = b := by
  have hd : (b.dropWhile isPySpace).length ≤ b.length :=
    (List.dropWhile_suffix _).length_le
  have hr : (pyStripL b).length ≤ (b.dropWhile isPySpace).length :=
    (List.rdropWhile_prefix _ _).length_le
  rw [h] at hr
  have hlen : (b.dropWhile isPySpace).length = b.length := le_antisymm hd hr
  have hdw : b.dropWhile isPySpace = b :=
    (List.dropWhile_suffix _).eq_of_length hlen
  refine ⟨hdw, ?_⟩
  have h2 := h
  rwa [pyStripL, hdw] at h2

/-- A left strip skips over a nonempty block it leaves unchanged. -/
theorem dropWhile_append_left {l₁ l₂ : List Char}
    (h : l₁.dropWhile isPySpace = l₁) (hne : l₁ ≠ []) :
    (l₁ ++ l₂).dropWhile isPySpace = l₁ ++ l₂ := by
  rw [List.dropWhile_append, h]
  have hem : l₁.isEmpty = false := by
    cases l₁ with
    | nil => exact absurd rfl hne
    | cons a t => rfl
  rw [hem]
  rfl

/-- A right strip skips over a nonempty block it leaves unchanged. -/
theorem rdropWhile_append_right {l₁ l₂ : List Char}
    (h : l₂.rdropWhile isPySpace = l₂) (hne : l₂ ≠ []) :
    (l₁ ++ l₂).rdropWhile isPySpace = l₁ ++ l₂ := by
  have h2 : l₂.reverse.dropWhile isPySpace = l₂.reverse := by
    have := congrArg List.reverse h
    simpa [List.rdropWhile] using this
  have hem : l₂.reverse.isEmpty = false := by
    rcases hrev : l₂.reverse with _ | ⟨a, t⟩
    · exact absurd (by simpa using hrev) hne
    · rfl
  rw [List.rdropWhile, List.reverse_append, List.dropWhile_append, h2, hem]
  simp

/-- Unfolding of `List.intercalate` at a cons with nonempty tail. -/
theorem intercalate_cons_of_ne {b : List Char} {t : List (List Char)}
    (h : t ≠ []) :
    List.intercalate ['\n'] (b :: t) = b ++ '\n' :: List.intercalate ['\n'] t := by
  cases t with
  | nil => exact absurd rfl h
  | cons z t2 => simp [List.intercalate, List.intersperse]

/-- A newline-join of nonempty lines is nonempty. -/
theorem intercalate_ne_nil {bs : List (List Char)} (hne : bs ≠ [])
    (h : ∀ b ∈ bs, b ≠ []) : List.intercalate ['\n'] bs ≠ [] := by
  cases bs with
  | nil => exact absurd rfl hne
  | cons b t =>
    cases t with
    | nil => simpa [List.intercalate] using h b (List.mem_cons_self _ _)
    | cons z t2 =>
      rw [intercalate_cons_of_ne (by simp)]
      simp

/-- A newline-join of nonempty strip-invariant lines is strip-invariant. -/
theorem pyStripL_intercalate {bs : List (List Char)} (hne : bs ≠ [])
    (h : ∀ b ∈ bs, pyStripL b = b ∧ b ≠ []) :
    pyStripL (List.intercalate ['\n'] bs) = List.intercalate ['\n'] bs := by
  induction bs with
  | nil => exact absurd rfl hne
  | cons b t ih =>
    have hb := h b (List.mem_cons_self _ _)
    have hbparts := pyStripL_eq_self_parts hb.1
    cases t with
    | nil =>
      have hsingle : List.intercalate ['\n'] [b] = b := by
        simp [List.intercalate]
      rw [hsingle]
      exact hb.1
    | cons z t2 =>
      have htne : (z :: t2 : List (List Char)) ≠ [] := by simp
      have hJ := ih htne (fun x hx => h x (List.mem_cons_of_mem _ hx))
      have hJne : List.intercalate ['\n'] (z :: t2) ≠ [] :=
        intercalate_ne_nil htne (fun x hx => (h x (List.mem_cons_of_mem _ hx)).2)
      have hJparts := pyStripL_eq_self_parts hJ
      rw [intercalate_cons_of_ne htne]
      rw [pyStripL, dropWhile_append_left hbparts.1 hb.2]
      have hshape : b ++ '\n' :: List.intercalate ['\n'] (z :: t2) =
          (b ++ ['\n']) ++ List.intercalate ['\n'] (z :: t2) := by
        simp
      rw [hshape]
      exact rdropWhile_append_right hJparts.2 hJne

end AutoReview

namespace Audit

open AutoReview (pyStripL pyUpperL isPySpace pyStripL_intercalate
  intercalate_cons_of_ne intercalate_ne_nil)

/-! ## Claim C4 — the audit response parser -/

/-- The conditions making a line an ordinary instruction-section payload line:
strip-invariant, non-blank, not the `N/A` sentinel, not one of the three field
markers, and newline-free (it is one line). -/
def PayloadLine (b : List Char) : Prop :=
  pyStripL b = b ∧ b ≠ [] ∧ pyUpperL b ≠ naChars ∧
  issuesMarker.isPrefixOf b = false ∧ continueMarker.isPrefixOf b = false ∧
  instructionsMarker.isPrefixOf b = false ∧ '\n' ∉ b

instance (b : List Char) : Decidable (PayloadLine b) := by
  unfold PayloadLine
  infer_instance

/-- Inside the instructions section, scanning payload lines only accumulates
them, in order. -/
theorem foldl_parseStep_payload (issues cont : Bool) :
    ∀ (bs : List (List Char)) (acc : List (List Char)),
      (∀ b ∈ bs, PayloadLine b) →
      List.foldl parseStep ⟨issues, cont, true, acc⟩ bs =
        ⟨issues, cont, true, acc ++ bs⟩ := by
  intro bs
  induction bs with
  | nil => intro acc _; simp
  | cons b t ih =>
    intro acc hcond
    obtain ⟨hstrip, hne, hna, hm1, hm2, hm3, -⟩ :=
      hcond b (List.mem_cons_self _ _)
    have hstep : parseStep ⟨issues, cont, true, acc⟩ b =
        ⟨issues, cont, true, acc ++ [b]⟩ := by
      simp [parseStep, hstrip, hne, hna, hm1, hm2, hm3]
    rw [List.foldl_cons, hstep,
      ih (acc ++ [b]) (fun x hx => hcond x (List.mem_cons_of_mem _ hx))]
    simp

/-- The uppercased newline-join of payload lines is never the `N/A`
sentinel. -/
theorem pyUpperL_intercalate_ne_na {bs : List (List Char)} (hne : bs ≠ [])
    (h : ∀ b ∈ bs, PayloadLine b) :
    pyUpperL (List.intercalate ['\n'] bs) ≠ naChars := by
  cases bs with
  | nil => exact absurd rfl hne
  | cons b t =>
    cases t with
    | nil =>
      have hsingle : List.intercalate ['\n'] [b] = b := by
        simp [List.intercalate]
      rw [hsingle]
      exact (h b (List.mem_cons_self _ _)).2.2.1
    | cons z t2 =>
      rw [intercalate_cons_of_ne (by simp)]
      intro hcontra
      have hmem : '\n' ∈ pyUpperL (b ++ '\n' :: List.intercalate ['\n'] (z :: t2)) := by
        refine List.mem_map.mpr ⟨'\n', ?_, rfl⟩
        simp
      rw [hcontra] at hmem
      revert hmem
      decide

/-- Claim C4 (amended): the exact text
`"ISSUES_FOUND: NO\nCONTINUE: NO\nINSTRUCTIONS_FOR_CLAUDE: N/A"` parses to
`(False, False, None)`; and for every response formed by the three field
lines followed by a block of payload lines (non-blank, non-`N/A`,
strip-invariant, marker-free lines — the source drops blank and sentinel
lines and strips surrounding whitespace, which is what the counterexample
forces), the block is extracted verbatim into the instructions field. -/
theorem c4_parse_audit_response :
    parse_audit_response
        "ISSUES_FOUND: NO\nCONTINUE: NO\nINSTRUCTIONS_FOR_CLAUDE: N/A" =
      (false, false, none) ∧
    ∀ bs : List (List Char), bs ≠ [] → (∀ b ∈ bs, PayloadLine b) →
      parse_audit_response
          (String.mk (List.intercalate ['\n']
            ("ISSUES_FOUND: YES".data :: "CONTINUE: YES".data ::
             "INSTRUCTIONS_FOR_CLAUDE:".data :: bs))) =
        (true, true, some (String.mk (List.intercalate ['\n'] bs))) := by
  refine ⟨by decide, ?_⟩
  intro bs hne hcond
  have hsplit : (String.mk (List.intercalate ['\n']
      ("ISSUES_FOUND: YES".data :: "CONTINUE: YES".data ::
       "INSTRUCTIONS_FOR_CLAUDE:".data :: bs))).data.splitOn '\n' =
      "ISSUES_FOUND: YES".data :: "CONTINUE: YES".data ::
       "INSTRUCTIONS_FOR_CLAUDE:".data :: bs := by
    apply List.splitOn_intercalate
    · intro l hl
      simp only [List.mem_cons] at hl
      rcases hl with rfl | rfl | rfl | hl
      · decide
      · decide
      · decide
      · exact (hcond l hl).2.2.2.2.2.2
    · simp
  have hfold : ("ISSUES_FOUND: YES".data :: "CONTINUE: YES".data ::
      "INSTRUCTIONS_FOR_CLAUDE:".data :: bs).foldl parseStep
        ⟨false, false, false, []⟩ = ⟨true, true, true, bs⟩ := by
    have hhead : List.foldl parseStep ⟨false, false, false, []⟩
        ["ISSUES_FOUND: YES".data, "CONTINUE: YES".data,
         "INSTRUCTIONS_FOR_CLAUDE:".data] = ⟨true, true, true, []⟩ := by decide
    have hdecomp : ("ISSUES_FOUND: YES".data :: "CONTINUE: YES".data ::
        "INSTRUCTIONS_FOR_CLAUDE:".data :: bs) =
        ["ISSUES_FOUND: YES".data, "CONTINUE: YES".data,
         "INSTRUCTIONS_FOR_CLAUDE:".data] ++ bs := rfl
    rw [hdecomp, List.foldl_append, hhead,
      foldl_parseStep_payload true true bs [] hcond]
    rfl
  have hbsne : bs.isEmpty = false := by
    cases bs with
    | nil => exact absurd rfl hne
    | cons a t => rfl
  have hstripinv : pyStripL (List.intercalate ['\n'] bs) =
      List.intercalate ['\n'] bs :=
    pyStripL_intercalate hne (fun b hb => ⟨(hcond b hb).1, (hcond b hb).2.1⟩)
  have hnotna : pyUpperL (List.intercalate ['\n'] bs) ≠ naChars :=
    pyUpperL_intercalate_ne_na hne hcond
  rw [parse_audit_response, hsplit, hfold]
  simp only [hbsne, Bool.false_eq_true, if_false, hstripinv, if_neg hnotna]

/-- Counterexample to claim C4 as stated: a payload block containing a blank
line is not extracted verbatim — the parser drops the blank line. -/
theorem c4_parse_audit_response_counterexample :
    (parse_audit_response
        "ISSUES_FOUND: YES\nCONTINUE: YES\nINSTRUCTIONS_FOR_CLAUDE:\nfix A\n\nfix B").2.2 =
      some "fix A\nfix B" ∧
    ("fix A\nfix B" : String) ≠ "fix A\n\nfix B" := by
  exact ⟨by decide, by decide⟩

/-- Witness for C4 (amended): a two-line payload block is extracted
verbatim. -/
theorem c4_parse_audit_response_witness :
    parse_audit_response
        "ISSUES_FOUND: YES\nCONTINUE: YES\nINSTRUCTIONS_FOR_CLAUDE:\nfix A\nfix B" =
      (true, true, some "fix A\nfix B") := by
  have h := c4_parse_audit_response.2 ["fix A".data, "fix B".data]
    (by simp) (by decide)
  exact h

end Audit

